/-
Verification of the Mosaic file-storage pipeline (app/routers/files.py).

Shallow embedding conventions:
* A byte is a `Nat` (values < 256 in real executions; the embedding never
  relies on the bound except where noted), a byte string is a `List Nat`.
* The upload stream is the list of chunks produced by `stream.read(64*1024)`;
  chunks are non-empty (a file object returns `b""` only at EOF).
* External primitives (zstandard, AES-GCM, hashlib.sha256) are modelled by
  executable functions that keep exactly the interface properties the code
  relies on: the zstd frame starts with the standard magic
  `28 B5 2F FD` and decompression inverts compression, fails on a
  non-frame input, and enforces `max_output_size`; AES-GCM produces
  `ciphertext ++ tag(16)`, decryption inverts encryption and fails when the
  tag does not verify; sha256 hexdigest is an opaque injective encoding.
* Filesystem effects are made explicit: `_atomic_write` threads a
  temp-file/destination-file state and takes an oracle saying which external
  step (if any) fails, mirroring the `try/except` structure of the source.
-/
import Mathlib

namespace Mosaic

instance {ε α : Type} [DecidableEq ε] [DecidableEq α] : DecidableEq (Except ε α) :=
  fun a b =>
    match a, b with
    | .ok x, .ok y =>
      if h : x = y then isTrue (by rw [h]) else isFalse (by simp [h])
    | .error e, .error f =>
      if h : e = f then isTrue (by rw [h]) else isFalse (by simp [h])
    | .ok _, .error _ => isFalse (by simp)
    | .error _, .ok _ => isFalse (by simp)

/-! ### Configuration (app/routers/files.py lines 37-56)

`MAX_UPLOAD_SIZE` and `MAX_USER_STORAGE` are environment values with fixed
defaults (25 MiB and 200 MiB); the claims quantify only over the
compression/encryption settings, so the two size ceilings are embedded at
their default values and the toggles live in `Config`. -/

def MAX_SINGLE_UPLOAD_BYTES : Nat := 25 * 1024 * 1024

def MAX_USER_TOTAL_BYTES : Nat := 200 * 1024 * 1024

def ALLOWED_EXTENSIONS : List String := [".pdf", ".png", ".jpg", ".jpeg", ".txt", ".md"]

def ALLOWED_MIME_PREFIXES : List String := ["image/", "text/", "application/pdf"]

/-- Process-wide settings: `ENABLE_COMPRESSION` and the optional 32-byte
AES-GCM key (`ENABLE_ENCRYPTION = bool(ENCRYPTION_KEY_HEX)`). -/
structure Config where
  enableCompression : Bool
  encryptionKey : Option (List Nat)
deriving Repr, DecidableEq

/-! ### External codec models -/

/-- The standard Zstandard frame magic `b"\x28\xB5\x2F\xFD"` (files.py line 299/333). -/
def zstdMagic : List Nat := [0x28, 0xB5, 0x2F, 0xFD]

/-- Model of `zstd.ZstdCompressor(...).stream_writer` followed by
`flush(FLUSH_FRAME)`: produces one self-delimited frame beginning with the
standard magic and carrying the payload. The compression level does not
affect the modelled frame contents. -/
def zstdCompress (data : List Nat) : List Nat := zstdMagic ++ data

/-- Model of `zstd.ZstdDecompressor().decompress(data, max_output_size=maxOut)`:
fails on a buffer that is not a frame, fails when the decoded payload exceeds
`maxOut`, otherwise returns the payload. -/
def zstdDecompress (maxOut : Nat) (data : List Nat) : Except String (List Nat) :=
  if zstdMagic.isPrefixOf data then
    let out := data.drop zstdMagic.length
    if out.length ≤ maxOut then .ok out else .error "decompressed size exceeds maximum"
  else .error "unknown frame descriptor"

/-- Model of `dctx.decompress(data)` with no explicit output bound
(files.py line 376). -/
def zstdDecompressUnbounded (data : List Nat) : Except String (List Nat) :=
  if zstdMagic.isPrefixOf data then .ok (data.drop zstdMagic.length)
  else .error "unknown frame descriptor"

/-- Keystream byte of the modelled AES-GCM cipher. -/
def aesKeystream (key nonce : List Nat) (i : Nat) : Nat :=
  (key.getD (i % 32) 0 + nonce.getD (i % 12) 0 + i) % 256

/-- Authentication tag (16 bytes) of the modelled AES-GCM cipher. -/
def aesTag (key nonce pt : List Nat) : List Nat :=
  (List.range 16).map fun i =>
    (pt.foldl (· + ·) 0 + pt.length + key.foldl (· + ·) 0 + nonce.foldl (· + ·) 0 + i) % 256

/-- XOR the bytes from position `i` onward with the keystream (the CTR-mode
body of the modelled cipher; XOR-masking is an involution). -/
def maskFrom (key nonce : List Nat) (i : Nat) : List Nat → List Nat
  | [] => []
  | b :: bs => (b ^^^ aesKeystream key nonce i) :: maskFrom key nonce (i + 1) bs

/-- Model of `AESGCM(key).encrypt(nonce, plaintext, None)`: the returned
buffer is the masked plaintext with the 16-byte tag appended
(files.py line 176-177: "AESGCM appends tag to ciphertext"). -/
def aesgcmEncrypt (key nonce pt : List Nat) : List Nat :=
  maskFrom key nonce 0 pt ++ aesTag key nonce pt

/-- Model of `AESGCM(key).decrypt(nonce, ct, None)`: strips the trailing
16-byte tag, unmasks, and fails (`InvalidTag`) unless the tag verifies. -/
def aesgcmDecrypt (key nonce ct : List Nat) : Except String (List Nat) :=
  if ct.length < 16 then .error "InvalidTag"
  else
    let body := ct.take (ct.length - 16)
    let tg := ct.drop (ct.length - 16)
    let pt := maskFrom key nonce 0 body
    if tg = aesTag key nonce pt then .ok pt else .error "InvalidTag"

/-- Model of `hashlib.sha256(...).hexdigest()` over the plaintext chunks: an
opaque injective encoding of the hashed bytes (the pipeline relies on no
property of the digest beyond determinism; it is stored and echoed in a
response header, and the hex string is modelled as a byte list). -/
def sha256Hex (data : List Nat) : List Nat := data

/-- `str.startswith` on Python strings, via the character lists (equivalent
to `String.startsWith`, stated this way so it evaluates by `decide`). -/
def strStartsWith (s pref : String) : Bool := pref.toList.isPrefixOf s.toList

/-- `str.lower` (the strings compared here are ASCII). -/
def strToLower (s : String) : String := String.mk (s.toList.map Char.toLower)

/-! ### Content sniffing (files.py `_sniff_magic`, lines 103-114) -/

def pdfMagic : List Nat := [0x25, 0x50, 0x44, 0x46]        -- b"%PDF"

def pngMagic : List Nat := [0x89, 0x50, 0x4E, 0x47, 0x0D, 0x0A, 0x1A, 0x0A]

def jpegMagic : List Nat := [0xFF, 0xD8]

/-- `(32 <= b <= 126) or b in (9, 10, 13)` (files.py line 112). -/
def printableByte (b : Nat) : Bool :=
  (32 ≤ b && b ≤ 126) || b == 9 || b == 10 || b == 13

/-- `_sniff_magic` (files.py lines 103-114). -/
def sniffMagic (data : List Nat) : String :=
  if pdfMagic.isPrefixOf data then "application/pdf"
  else if pngMagic.isPrefixOf data then "image/png"
  else if jpegMagic.isPrefixOf data then "image/jpeg"
  else if (data.take 128).all printableByte then "text/plain"
  else "application/octet-stream"

/-- `_validate_content_type` predicate (files.py lines 99-101). -/
def mimeAllowed (sniffed : String) : Bool :=
  ALLOWED_MIME_PREFIXES.any fun pref => strStartsWith sniffed pref

/-! ### Extension validation (files.py `_validate_extension`, lines 93-97)

`os.path.splitext(filename)[1]`: the extension starts at the last dot of the
name, except that dots with only dots before them (leading dots of the
basename, e.g. `".txt"`) do not begin an extension. Filenames here carry no
directory separator (they are user-supplied basenames). -/

def extStart (cs : List Char) : Option Nat :=
  (List.range cs.length).foldl
    (fun acc i =>
      if cs.getD i ' ' = '.' then
        if (List.range i).all (fun j => cs.getD j ' ' = '.') then acc else some i
      else acc)
    none

def extOf (name : String) : String :=
  match extStart name.toList with
  | none => ""
  | some i => String.mk (name.toList.drop i)

/-- `ext.lower()` membership in the allow-list. -/
def extensionAllowed (filename : String) : Bool :=
  ALLOWED_EXTENSIONS.contains (strToLower (extOf filename))

/-! ### The atomic writer (`_atomic_write`, files.py lines 116-200)

The writer reads the source in 64 KiB chunks; external filesystem/codec
operations that can raise are identified by `WStep`, and the writer takes an
oracle `failAt` naming the step (if any) at which the external operation
fails. `failAt = none` is the fault-free run. `os.chmod` (line 193) runs
after the atomic rename and is outside the fault model. -/

def CHUNK_SIZE : Nat := 64 * 1024

/-- Split a byte string into the successive non-empty chunks that
`stream.read(64 * 1024)` yields (structural recursion on a fuel that the
list length always covers, so the definition evaluates by kernel
reduction). -/
def toChunksAux : Nat → List Nat → List (List Nat)
  | _, [] => []
  | 0, _ :: _ => []
  | fuel + 1, a :: as =>
    ((a :: as).take CHUNK_SIZE) :: toChunksAux fuel ((a :: as).drop CHUNK_SIZE)

def toChunks (l : List Nat) : List (List Nat) := toChunksAux l.length l

/-- Fallible external steps of `_atomic_write`: the chunk copy at index `k`
(read from the source or write to the temp file, lines 133-157), the
compressor finalization (`flush(FLUSH_FRAME)`, lines 160-168), the encryption
pass (read-back, seal, overwrite, lines 172-181), the `fsync` (lines 184-185)
and the atomic rename (line 192). -/
inductive WStep where
  | copy (k : Nat)
  | compressFin
  | encryptStep
  | fsyncStep
  | renameStep
deriving Repr, DecidableEq

inductive WriteErr where
  | tooLarge                    -- HTTPException 413 "File too large" (line 154)
  | badContentType              -- HTTPException 400 "Content type not allowed" (line 101)
  | ioFailure (s : WStep)       -- an external OS/codec error at step `s`
deriving Repr, DecidableEq

/-- The two filesystem locations `_atomic_write` touches: the `mkstemp` file
and the destination name. -/
structure Fs where
  tempExists : Bool
  destExists : Bool
deriving Repr, DecidableEq

/-- Successful-write descriptor: the tuple returned at line 194 (the GCM tag,
stored but never read back, is omitted) together with the final on-disk
bytes. -/
structure WriteOk where
  size : Nat
  contentType : String
  checksum : List Nat
  compressed : Bool
  encrypted : Bool
  nonceOut : Option (List Nat)
  disk : List Nat
deriving Repr, DecidableEq

def failCopyIdx : Option WStep → Option Nat
  | some (.copy k) => some k
  | _ => none

/-- The streaming copy loop (lines 133-157): for each chunk, in source order,
fail if the external copy at this index fails, add the chunk length to the
running counter, raise 413 as soon as the counter exceeds the ceiling
(before the chunk is written), else accumulate the plaintext. Returns the
final counter and the concatenated plaintext. -/
def copyLoop (failCopyAt : Option Nat) : List (List Nat) → Nat → Nat →
    Except WriteErr (Nat × List Nat)
  | [], _, size => .ok (size, [])
  | c :: rest, k, size =>
    if failCopyAt = some k then .error (.ioFailure (.copy k))
    else
      let size' := size + c.length
      if MAX_SINGLE_UPLOAD_BYTES < size' then .error .tooLarge
      else
        match copyLoop failCopyAt rest (k + 1) size' with
        | .ok (s, tl) => .ok (s, c ++ tl)
        | .error e => .error e

/-- Steps 6-8 of the writer: fsync, content-type validation from the captured
plaintext prefix, atomic rename (lines 184-193). -/
def finishWrite (failAt : Option WStep) (firstChunk : List Nat) (size : Nat)
    (checksum : List Nat) (compressed encrypted : Bool) (nonceOut : Option (List Nat))
    (disk : List Nat) : Except WriteErr WriteOk × Fs :=
  if failAt = some .fsyncStep then (.error (.ioFailure .fsyncStep), ⟨true, false⟩)
  else if ¬ mimeAllowed (sniffMagic firstChunk) then (.error .badContentType, ⟨true, false⟩)
  else if failAt = some .renameStep then (.error (.ioFailure .renameStep), ⟨true, false⟩)
  else (.ok ⟨size, sniffMagic firstChunk, checksum, compressed, encrypted, nonceOut, disk⟩,
        ⟨false, true⟩)

/-- The body of `_atomic_write`'s `try:` block (lines 127-194), from just
after `mkstemp` (so the temp file exists throughout) to the return. The
returned `Fs` is the filesystem state at the point the body returns or
raises, before the `except` handler runs. -/
def atomicWriteBody (cfg : Config) (failAt : Option WStep) (nonce : List Nat)
    (chunks : List (List Nat)) : Except WriteErr WriteOk × Fs :=
  match copyLoop (failCopyIdx failAt) chunks 0 0 with
  | .error e => (.error e, ⟨true, false⟩)
  | .ok (size, plaintext) =>
    let firstChunk := (chunks.headD []).take 512
    let sniffType := sniffMagic firstChunk
    -- decided on the first chunk (lines 138-150); stays false for an empty source
    let shouldCompress := !chunks.isEmpty && cfg.enableCompression
      && !(strStartsWith sniffType "image/")
    if shouldCompress && failAt = some .compressFin then
      (.error (.ioFailure .compressFin), ⟨true, false⟩)
    else
      let temp1 := if shouldCompress then zstdCompress plaintext else plaintext
      match cfg.encryptionKey with
      | some key =>
        if failAt = some .encryptStep then (.error (.ioFailure .encryptStep), ⟨true, false⟩)
        else
          finishWrite failAt firstChunk size (sha256Hex plaintext) shouldCompress true
            (some nonce) (nonce ++ aesgcmEncrypt key nonce temp1)
      | none =>
          finishWrite failAt firstChunk size (sha256Hex plaintext) shouldCompress false
            none temp1

/-- `_atomic_write` (lines 116-200): run the body; on any raised error the
`except` handler removes the temporary file (lines 195-200) before the error
propagates. -/
def atomicWrite (cfg : Config) (failAt : Option WStep) (nonce : List Nat)
    (chunks : List (List Nat)) : Except WriteErr WriteOk × Fs :=
  match atomicWriteBody cfg failAt nonce chunks with
  | (.error e, fs) => (.error e, { fs with tempExists := false })
  | (.ok w, fs) => (.ok w, fs)

/-- Fault-free `_atomic_write` on a byte string, as the upload endpoint calls
it: the stream is read in 64 KiB chunks. -/
def atomicWriteBytes (cfg : Config) (nonce : List Nat) (bytes : List Nat) :
    Except WriteErr WriteOk :=
  (atomicWrite cfg none nonce (toChunks bytes)).fst

/-! ### Stored metadata (app/models.py `File`) and the reader
(files.py `download_file` + `stream_pipeline`, lines 275-429)

`is_compressed` / `is_encrypted` are nullable at the database level for rows
written before those columns existed; the reader explicitly distinguishes
`True` / `False` / `None`, so they are embedded as `Option Bool`. -/

structure FileRec where
  ownerId : Nat
  filename : String
  visibility : String
  size : Option Nat
  checksumSha256 : Option (List Nat)
  contentTypeField : Option String
  isCompressed : Option Bool
  isEncrypted : Option Bool
deriving Repr, DecidableEq

inductive ReadErr where
  | notFound            -- 404 "File not found"
  | notAuthorized       -- 403 "Not authorized"
  | fileMissing         -- 410 "File missing"
  | keyMissing          -- 500 "Encryption key not configured"
  | corruptEncrypted    -- 500 "Corrupt encrypted file"
  | cannotDecrypt       -- 410 "Unable to decrypt (key mismatch or corrupt)"
  | streamAbort         -- uncaught zstd error inside the streaming generator
deriving Repr, DecidableEq

def MAX_INMEMORY_BYTES : Nat := 50 * 1024 * 1024

/-- The in-memory read path (files.py lines 298-329): decrypt when the
stored flag is truthy (`bool(None) = False`), then decompress when the flag
is truthy or the flag is NULL and the bytes carry the zstd magic, falling
back to serving the bytes as-is when decompression fails. -/
def readSmall (cfg : Config) (fileObj : FileRec) (disk : List Nat) :
    Except ReadErr (List Nat) :=
  let step1 : Except ReadErr (List Nat) :=
    if fileObj.isEncrypted.getD false then
      match cfg.encryptionKey with
      | none => .error .keyMissing
      | some key =>
        if disk.length < 12 then .error .corruptEncrypted
        else
          match aesgcmDecrypt key (disk.take 12) (disk.drop 12) with
          | .ok pt => .ok pt
          | .error _ => .error .cannotDecrypt
    else .ok disk
  match step1 with
  | .error e => .error e
  | .ok data =>
    if fileObj.isCompressed.getD false
        || (fileObj.isCompressed.isNone && zstdMagic.isPrefixOf data) then
      -- `max_out = file_obj.size or (100 * 1024 * 1024)`: Python `or` takes the
      -- default when size is None *or zero*
      let maxOut := match fileObj.size with
        | some n => if n ≠ 0 then n else 100 * 1024 * 1024
        | none => 100 * 1024 * 1024
      match zstdDecompress maxOut data with
      | .ok d => .ok d
      | .error _ => .ok data    -- "Fallback: return as-is" (lines 322-324)
    else .ok data

/-- The streaming read path (`stream_pipeline`, files.py lines 332-424).
The result is the concatenation of the yielded chunks, or the error the
generator raises. -/
def streamRead (cfg : Config) (fileObj : FileRec) (disk : List Nat) :
    Except ReadErr (List Nat) :=
  -- Phase 1 (lines 337-367): decide encryption. `some pt` means decrypted (or
  -- opportunistically loaded) plaintext is in memory; `none` means the raw
  -- file is to be read from position 0 (every fallback does `rf.seek(0)`).
  let phase1 : Except ReadErr (Option (List Nat)) :=
    match fileObj.isEncrypted with
    | some true =>
      match cfg.encryptionKey with
      | none => .error .keyMissing
      | some key =>
        if disk.length < 12 then .error .corruptEncrypted
        else
          match aesgcmDecrypt key (disk.take 12) (disk.drop 12) with
          | .ok pt => .ok (some pt)
          | .error _ => .error .cannotDecrypt
    | none =>
      -- "Try to decrypt opportunistically; if it fails, treat as unencrypted"
      match cfg.encryptionKey with
      | some key =>
        if 12 ≤ disk.length then
          match aesgcmDecrypt key (disk.take 12) (disk.drop 12) with
          | .ok pt => .ok (some pt)
          | .error _ => .ok none      -- rf.seek(0) and stream raw
        else .ok none                 -- rf.seek(0)
      | none => .ok none
    | some false => .ok none
  match phase1 with
  | .error e => .error e
  | .ok (some pt) =>
    -- lines 371-391: plaintext in memory
    if fileObj.isCompressed.getD false
        || (fileObj.isCompressed.isNone && zstdMagic.isPrefixOf pt) then
      match zstdDecompressUnbounded pt with
      | .ok d => .ok d
      | .error _ => .ok pt            -- "Fallback: serve plaintext as-is"
    else .ok pt
  | .ok none =>
    -- lines 392-423: raw file path (position 0); no fallback on a bad frame
    match fileObj.isCompressed with
    | some true =>
      match zstdDecompressUnbounded disk with
      | .ok d => .ok d
      | .error _ => .error .streamAbort
    | none =>
      if disk.take 4 = zstdMagic then
        match zstdDecompressUnbounded disk with
        | .ok d => .ok d
        | .error _ => .error .streamAbort
      else .ok disk
    | some false => .ok disk

/-- Content reconstruction of `download_file` (lines 293-429): in-memory for
on-disk sizes up to the 50 MiB threshold, streaming otherwise. -/
def readObject (cfg : Config) (fileObj : FileRec) (disk : List Nat) :
    Except ReadErr (List Nat) :=
  if disk.length ≤ MAX_INMEMORY_BYTES then readSmall cfg fileObj disk
  else streamRead cfg fileObj disk

/-- `_authorize_file_access` (lines 275-280) as a predicate. -/
def authorizeFileAccess (userId : Nat) (fileObj : FileRec) : Bool :=
  fileObj.visibility == "public" || fileObj.ownerId == userId

structure DlResp where
  body : List Nat
  checksumHeader : List Nat
deriving Repr, DecidableEq

/-- `download_file` (lines 282-429): metadata lookup (404), access gate
(403), file presence (410), then content reconstruction. `disk?` is the
destination file's contents, `none` when the file is missing; it is consulted
only after the access gate passes. -/
def downloadFile (cfg : Config) (userId : Nat) (fileObj? : Option FileRec)
    (disk? : Option (List Nat)) : Except ReadErr DlResp :=
  match fileObj? with
  | none => .error .notFound
  | some fileObj =>
    if ¬ authorizeFileAccess userId fileObj then .error .notAuthorized
    else
      match disk? with
      | none => .error .fileMissing
      | some disk =>
        match readObject cfg fileObj disk with
        | .error e => .error e
        | .ok body => .ok ⟨body, fileObj.checksumSha256.getD []⟩

/-! ### Quota ledger (`_user_storage_bytes`, lines 81-91) and the upload
endpoint (`upload_file`, lines 203-273) -/

/-- One row as the quota ledger sees it: the recorded `size` column and what
`os.path.getsize(filepath)` would return (`none` models an `OSError`, which
the ledger swallows). -/
structure StoredRec where
  size : Option Nat
  onDiskSize : Option Nat
deriving Repr, DecidableEq

/-- One row's contribution: `if f.size:` is Python truthiness, so a `None`
*or zero* size falls back to the on-disk size. -/
def storageContribution (f : StoredRec) : Nat :=
  match f.size with
  | some n => if n ≠ 0 then n else f.onDiskSize.getD 0
  | none => f.onDiskSize.getD 0

/-- `_user_storage_bytes`: sum of the contributions of the owner's rows. -/
def userStorageBytes (files : List StoredRec) : Nat :=
  files.foldl (fun total f => total + storageContribution f) 0

/-- The usage function as the specification words it ("falling back to the
on-disk file size when the size field is absent"): the fallback applies only
to an absent size, not to a recorded zero. Stated for comparison with
`userStorageBytes`. -/
def userStorageBytesSpec (files : List StoredRec) : Nat :=
  files.foldl
    (fun total f =>
      total + (match f.size with
               | some n => n
               | none => f.onDiskSize.getD 0)) 0

inductive UploadErr where
  | quotaPre                 -- 403 at the pre-check (line 215)
  | extNotAllowed            -- 400 "Extension not allowed" (line 96)
  | writeFailed (e : WriteErr)
  | quotaPost                -- 403 at the post-check (line 245), artifact deleted
deriving Repr, DecidableEq

/-- Build the `FileModel` row committed at lines 247-261. -/
def mkFileRec (userId : Nat) (originalName visibility : String) (w : WriteOk) :
    FileRec :=
  { ownerId := userId
    filename := originalName
    visibility := if visibility = "private" ∨ visibility = "public" ∨ visibility = "unlisted"
                  then visibility else "private"
    size := some w.size
    checksumSha256 := some w.checksum
    contentTypeField := some w.contentType
    isCompressed := some w.compressed
    isEncrypted := some w.encrypted }

/-- `upload_file` (lines 203-273) for an authenticated owner, fault-free
filesystem. `filesBefore` is the owner's row set at the pre-check,
`filesAfter` at the post-check (they may differ under concurrency). The
redundant Content-Length header pre-screen (lines 218-225) is subsumed by the
writer's streaming ceiling and not modelled. The second component is the
contents at the destination name after the request finishes (`none`: no
artifact). -/
def uploadFile (cfg : Config) (userId : Nat) (filesBefore filesAfter : List StoredRec)
    (filename visibility : String) (nonce : List Nat) (bytes : List Nat) :
    Except UploadErr (FileRec × List Nat) × Option (List Nat) :=
  if MAX_USER_TOTAL_BYTES ≤ userStorageBytes filesBefore then (.error .quotaPre, none)
  else if ¬ extensionAllowed filename then (.error .extNotAllowed, none)
  else
    match atomicWriteBytes cfg nonce bytes with
    | .error e => (.error (.writeFailed e), none)
    | .ok w =>
      -- under the per-user lock (lines 236-272)
      if MAX_USER_TOTAL_BYTES < userStorageBytes filesAfter + w.size then
        (.error .quotaPost, none)     -- os.remove(final_path), then 403
      else
        (.ok (mkFileRec userId filename visibility w, w.disk), some w.disk)

/-! ### Fault-free writer outcome, as functions of the raw byte string -/

/-- The compression decision of `_atomic_write` as a function of the raw
byte string: first chunk present, compression enabled, sniffed type not
`image/*`. -/
def shouldCompressBytes (cfg : Config) (bytes : List Nat) : Bool :=
  !bytes.isEmpty && cfg.enableCompression
    && !(strStartsWith (sniffMagic (bytes.take 512)) "image/")

/-- Temp-file contents after the copy loop and compressor finalization. -/
def storedPayload (cfg : Config) (bytes : List Nat) : List Nat :=
  if shouldCompressBytes cfg bytes then zstdCompress bytes else bytes

/-- Final on-disk contents of a fault-free write. -/
def diskBytes (cfg : Config) (nonce bytes : List Nat) : List Nat :=
  match cfg.encryptionKey with
  | some key => nonce ++ aesgcmEncrypt key nonce (storedPayload cfg bytes)
  | none => storedPayload cfg bytes

/-! ### Locking structure and interleaving model of concurrent uploads

`upload_file` executes, in source order: the quota pre-check (lines 213-215),
the streamed atomic write (line 233), then — only there — acquisition of the
per-user `threading.Lock` (lines 236-237) around the post-check and the
metadata commit (lines 238-273). `uploadSteps` records that order together
with the lock acquire/release points, so the lock scope is a checkable fact
of the embedding. -/

inductive UStep where
  | preCheck          -- lines 213-215
  | writeStep         -- line 233 (`_atomic_write`)
  | acquire           -- lines 236-237 (`with lock:` entry)
  | postCheckCommit   -- lines 238-273
  | release           -- `with lock:` exit
deriving Repr, DecidableEq

def uploadSteps : List UStep := [.preCheck, .writeStep, .acquire, .postCheckCommit, .release]

def countStep (s : UStep) (l : List UStep) : Nat := (l.filter (· = s)).length

/-- The per-owner lock is held while step `i` executes. -/
def insideLock (steps : List UStep) (i : Nat) : Bool :=
  countStep .release (steps.take i) < countStep .acquire (steps.take i)

/-- Two concurrent uploads of the same size by one owner, against a cap.
Thread phases: 0 = not started, 1 = pre-check passed, 2 = object written
(artifact on disk, metadata not committed), 3 = committed (success),
4 = rejected. `usage` is `_user_storage_bytes` (committed rows only — the
uncommitted artifact contributes nothing, its row does not exist yet). -/
structure QuotaSys where
  usage : Nat
  phase1 : Nat
  art1 : Bool
  phase2 : Nat
  art2 : Bool
deriving Repr, DecidableEq

def qInit : QuotaSys := ⟨0, 0, false, 0, false⟩

/-- One scheduler step: run the next instruction of thread 1 (`t = true`) or
thread 2. The pre-check and the write are separate interleavable steps
(they run outside the lock); the post-check plus metadata commit is a single
atomic step, because the per-user `threading.Lock` serializes lines 237-273
of the two requests and no step outside the lock writes the quantities it
reads. A post-check failure removes the artifact (`os.remove(final_path)`). -/
def qstep (cap sz : Nat) (s : QuotaSys) (t : Bool) : QuotaSys :=
  if t then
    match s.phase1 with
    | 0 => if cap ≤ s.usage then { s with phase1 := 4 } else { s with phase1 := 1 }
    | 1 => { s with phase1 := 2, art1 := true }
    | 2 => if cap < s.usage + sz then { s with phase1 := 4, art1 := false }
           else { s with phase1 := 3, usage := s.usage + sz }
    | _ => s
  else
    match s.phase2 with
    | 0 => if cap ≤ s.usage then { s with phase2 := 4 } else { s with phase2 := 1 }
    | 1 => { s with phase2 := 2, art2 := true }
    | 2 => if cap < s.usage + sz then { s with phase2 := 4, art2 := false }
           else { s with phase2 := 3, usage := s.usage + sz }
    | _ => s

/-- Run an arbitrary interleaving (a schedule may keep picking a finished
thread; that is a no-op). -/
def runSched (cap sz : Nat) (sched : List Bool) : QuotaSys :=
  sched.foldl (qstep cap sz) qInit

/-- Inductive invariant of the two-upload system. -/
def QInv (sz : Nat) (s : QuotaSys) : Prop :=
  s.usage = (if s.phase1 = 3 then sz else 0) + (if s.phase2 = 3 then sz else 0)
  ∧ (s.art1 = true ↔ (s.phase1 = 2 ∨ s.phase1 = 3))
  ∧ (s.art2 = true ↔ (s.phase2 = 2 ∨ s.phase2 = 3))
  ∧ ¬(s.phase1 = 3 ∧ s.phase2 = 3)
  ∧ (s.phase1 = 4 → s.phase2 = 3)
  ∧ (s.phase2 = 4 → s.phase1 = 3)
  ∧ s.phase1 ≤ 4 ∧ s.phase2 ≤ 4

/-! ### Basic laws of the embedding -/

theorem toChunksAux_congr : ∀ (fuel : Nat) (l : List Nat) (fuel' : Nat),
    l.length ≤ fuel → l.length ≤ fuel' → toChunksAux fuel l = toChunksAux fuel' l := by
  intro fuel
  induction fuel with
  | zero =>
    intro l fuel' h _
    have hl : l = [] := List.eq_nil_of_length_eq_zero (Nat.le_zero.mp h)
    subst hl
    cases fuel' <;> rfl
  | succ f ihf =>
    intro l fuel' h h'
    cases l with
    | nil => cases fuel' <;> rfl
    | cons a as =>
      cases fuel' with
      | zero => simp at h'
      | succ f' =>
        simp only [toChunksAux]
        congr 1
        apply ihf
        · simp only [List.length_drop, List.length_cons, CHUNK_SIZE] at h ⊢
          omega
        · simp only [List.length_drop, List.length_cons, CHUNK_SIZE] at h' ⊢
          omega

theorem toChunks_cons (a : Nat) (as : List Nat) :
    toChunks (a :: as) =
      ((a :: as).take CHUNK_SIZE) :: toChunks ((a :: as).drop CHUNK_SIZE) := by
  show toChunksAux (a :: as).length (a :: as) = _
  simp only [List.length_cons, toChunksAux]
  congr 1
  apply toChunksAux_congr
  · simp only [List.length_drop, List.length_cons, CHUNK_SIZE]
    omega
  · exact le_rfl

theorem toChunks_flatten (l : List Nat) : (toChunks l).flatten = l := by
  match l with
  | [] => rfl
  | a :: as =>
    rw [toChunks_cons, List.flatten_cons,
        toChunks_flatten ((a :: as).drop CHUNK_SIZE)]
    exact List.take_append_drop _ _
termination_by l.length
decreasing_by
  simp only [List.length_drop, List.length_cons, CHUNK_SIZE]
  omega

theorem toChunks_sumLen (l : List Nat) :
    ((toChunks l).map List.length).sum = l.length := by
  rw [← List.length_flatten, toChunks_flatten]

theorem toChunks_isEmpty (l : List Nat) : (toChunks l).isEmpty = l.isEmpty := by
  cases l with
  | nil => rfl
  | cons a as => rw [toChunks_cons]; rfl

theorem toChunks_headD_take512 (l : List Nat) :
    ((toChunks l).headD []).take 512 = l.take 512 := by
  cases l with
  | nil => rfl
  | cons a as =>
    rw [toChunks_cons]
    show ((a :: as).take CHUNK_SIZE).take 512 = _
    rw [List.take_take]
    norm_num [CHUNK_SIZE]

theorem copyLoop_none_ok (chunks : List (List Nat)) :
    ∀ (k size : Nat),
      size + (chunks.map List.length).sum ≤ MAX_SINGLE_UPLOAD_BYTES →
      copyLoop none chunks k size =
        .ok (size + (chunks.map List.length).sum, chunks.flatten) := by
  induction chunks with
  | nil => intro k size h; simp [copyLoop]
  | cons c rest ih =>
    intro k size h
    simp only [List.map_cons, List.sum_cons] at h
    have hno : ¬ (MAX_SINGLE_UPLOAD_BYTES < size + c.length) := by omega
    simp only [copyLoop, reduceCtorEq, if_false, if_neg hno]
    rw [ih (k + 1) (size + c.length) (by omega)]
    simp only [List.map_cons, List.sum_cons, List.flatten_cons]
    congr 2
    omega

theorem copyLoop_none_tooLarge (chunks : List (List Nat)) :
    ∀ (k size : Nat),
      size ≤ MAX_SINGLE_UPLOAD_BYTES →
      MAX_SINGLE_UPLOAD_BYTES < size + (chunks.map List.length).sum →
      copyLoop none chunks k size = .error .tooLarge := by
  induction chunks with
  | nil => intro k size hs h; simp at h; omega
  | cons c rest ih =>
    intro k size hs h
    simp only [List.map_cons, List.sum_cons] at h
    simp only [copyLoop, reduceCtorEq, if_false]
    by_cases hbig : MAX_SINGLE_UPLOAD_BYTES < size + c.length
    · rw [if_pos hbig]
    · rw [if_neg hbig]
      rw [ih (k + 1) (size + c.length) (by omega) (by omega)]

theorem maskFrom_length (key nonce : List Nat) :
    ∀ (i : Nat) (pt : List Nat), (maskFrom key nonce i pt).length = pt.length := by
  intro i pt
  induction pt generalizing i with
  | nil => rfl
  | cons b bs ih => simp [maskFrom, ih]

theorem maskFrom_maskFrom (key nonce : List Nat) :
    ∀ (i : Nat) (pt : List Nat), maskFrom key nonce i (maskFrom key nonce i pt) = pt := by
  intro i pt
  induction pt generalizing i with
  | nil => rfl
  | cons b bs ih =>
    simp only [maskFrom, ih]
    rw [Nat.xor_assoc, Nat.xor_self, Nat.xor_zero]

theorem aesTag_length (key nonce pt : List Nat) : (aesTag key nonce pt).length = 16 := by
  simp [aesTag]

theorem aesgcmEncrypt_length (key nonce pt : List Nat) :
    (aesgcmEncrypt key nonce pt).length = pt.length + 16 := by
  simp [aesgcmEncrypt, maskFrom_length, aesTag_length]

theorem aesgcmDecrypt_encrypt (key nonce pt : List Nat) :
    aesgcmDecrypt key nonce (aesgcmEncrypt key nonce pt) = .ok pt := by
  have hlen : (aesgcmEncrypt key nonce pt).length = pt.length + 16 :=
    aesgcmEncrypt_length key nonce pt
  have hmask : (maskFrom key nonce 0 pt).length = pt.length := maskFrom_length key nonce 0 pt
  unfold aesgcmDecrypt
  rw [hlen]
  have h16 : ¬ (pt.length + 16 < 16) := by omega
  rw [if_neg h16]
  have hsub : pt.length + 16 - 16 = pt.length := by omega
  rw [hsub]
  show (if (aesgcmEncrypt key nonce pt).drop pt.length
          = aesTag key nonce (maskFrom key nonce 0 ((aesgcmEncrypt key nonce pt).take pt.length))
        then Except.ok (maskFrom key nonce 0 ((aesgcmEncrypt key nonce pt).take pt.length))
        else Except.error "InvalidTag") = Except.ok pt
  unfold aesgcmEncrypt
  rw [← hmask, List.take_left, List.drop_left, maskFrom_maskFrom]
  rw [if_pos rfl]

theorem zstdDecompress_compress (maxOut : Nat) (data : List Nat)
    (h : data.length ≤ maxOut) :
    zstdDecompress maxOut (zstdCompress data) = .ok data := by
  unfold zstdDecompress zstdCompress
  rw [if_pos ((List.isPrefixOf_iff_prefix).mpr (List.prefix_append _ _))]
  show (if ((zstdMagic ++ data).drop zstdMagic.length).length ≤ maxOut
        then Except.ok ((zstdMagic ++ data).drop zstdMagic.length)
        else Except.error "decompressed size exceeds maximum") = _
  rw [List.drop_left, if_pos h]

theorem zstdDecompressUnbounded_compress (data : List Nat) :
    zstdDecompressUnbounded (zstdCompress data) = .ok data := by
  unfold zstdDecompressUnbounded zstdCompress
  rw [if_pos ((List.isPrefixOf_iff_prefix).mpr (List.prefix_append _ _)), List.drop_left]

/-! ### Fault-free writer characterization -/

theorem atomicWriteBytes_char (cfg : Config) (nonce bytes : List Nat)
    (hlen : bytes.length ≤ MAX_SINGLE_UPLOAD_BYTES)
    (hmime : mimeAllowed (sniffMagic (bytes.take 512)) = true) :
    atomicWriteBytes cfg nonce bytes =
      .ok ⟨bytes.length, sniffMagic (bytes.take 512), sha256Hex bytes,
           shouldCompressBytes cfg bytes, cfg.encryptionKey.isSome,
           if cfg.encryptionKey.isSome then some nonce else none,
           diskBytes cfg nonce bytes⟩ := by
  have hcopy : copyLoop none (toChunks bytes) 0 0 = .ok (bytes.length, bytes) := by
    have h := copyLoop_none_ok (toChunks bytes) 0 0
      (by rw [toChunks_sumLen]; omega)
    rw [toChunks_sumLen, toChunks_flatten, Nat.zero_add] at h
    exact h
  unfold atomicWriteBytes atomicWrite atomicWriteBody
  have hfc : failCopyIdx none = none := rfl
  rw [hfc, hcopy]
  simp only
  rw [toChunks_headD_take512, toChunks_isEmpty]
  have hsc : (!bytes.isEmpty && cfg.enableCompression
      && !(strStartsWith (sniffMagic (bytes.take 512)) "image/"))
      = shouldCompressBytes cfg bytes := rfl
  rw [hsc]
  have hnone : ((none : Option WStep) = some WStep.compressFin) = False := by simp
  simp only [hnone, decide_False, Bool.and_false, Bool.false_eq_true, if_false]
  cases hk : cfg.encryptionKey with
  | some key =>
    unfold finishWrite
    simp [hmime, storedPayload, diskBytes, hk, zstdCompress]
  | none =>
    unfold finishWrite
    simp [hmime, storedPayload, diskBytes, hk, zstdCompress]

theorem diskBytes_length_le (cfg : Config) (nonce bytes : List Nat)
    (hn : nonce.length = 12) (hlen : bytes.length ≤ MAX_SINGLE_UPLOAD_BYTES) :
    (diskBytes cfg nonce bytes).length ≤ MAX_INMEMORY_BYTES := by
  have hsp : (storedPayload cfg bytes).length ≤ bytes.length + 4 := by
    unfold storedPayload zstdCompress zstdMagic
    split <;> simp
  unfold diskBytes
  cases cfg.encryptionKey with
  | none =>
    simp only [MAX_INMEMORY_BYTES, MAX_SINGLE_UPLOAD_BYTES] at *
    omega
  | some key =>
    simp only [List.length_append, aesgcmEncrypt_length, hn]
    simp only [MAX_INMEMORY_BYTES, MAX_SINGLE_UPLOAD_BYTES] at *
    omega

/-- Reading back a fault-free write (the committed metadata row plus the
on-disk bytes) reproduces the original plaintext. -/
theorem readObject_of_write (cfg : Config) (nonce bytes : List Nat) (fileObj : FileRec)
    (hn : nonce.length = 12) (hlen : bytes.length ≤ MAX_SINGLE_UPLOAD_BYTES)
    (hsize : fileObj.size = some bytes.length)
    (hcomp : fileObj.isCompressed = some (shouldCompressBytes cfg bytes))
    (henc : fileObj.isEncrypted = some cfg.encryptionKey.isSome) :
    readObject cfg fileObj (diskBytes cfg nonce bytes) = .ok bytes := by
  unfold readObject
  rw [if_pos (diskBytes_length_le cfg nonce bytes hn hlen)]
  unfold readSmall
  rw [henc, hcomp, hsize]
  have hstep2 : ∀ data : List Nat, data = storedPayload cfg bytes →
      (if (some (shouldCompressBytes cfg bytes)).getD false
          || ((some (shouldCompressBytes cfg bytes)).isNone && zstdMagic.isPrefixOf data) then
        match zstdDecompress
            (match some bytes.length with
             | some n => if n ≠ 0 then n else 100 * 1024 * 1024
             | none => 100 * 1024 * 1024) data with
        | .ok d => Except.ok d
        | .error _ => Except.ok data
      else Except.ok data) = (.ok bytes : Except ReadErr (List Nat)) := by
    intro data hdata
    cases hsc : shouldCompressBytes cfg bytes with
    | false =>
      have : data = bytes := by rw [hdata]; simp [storedPayload, hsc]
      simp [this]
    | true =>
      have hne : bytes ≠ [] := by
        intro hnil
        rw [hnil] at hsc
        simp [shouldCompressBytes] at hsc
      have hlenne : bytes.length ≠ 0 := by
        cases bytes with
        | nil => exact absurd rfl hne
        | cons b bs => simp
      have hdata' : data = zstdCompress bytes := by rw [hdata]; simp [storedPayload, hsc]
      rw [hdata']
      simp only [Option.getD_some, Bool.true_or, if_true]
      rw [if_pos hlenne, zstdDecompress_compress bytes.length bytes le_rfl]
  cases hk : cfg.encryptionKey with
  | none =>
    have hdisk : diskBytes cfg nonce bytes = storedPayload cfg bytes := by
      simp [diskBytes, hk]
    rw [hdisk]
    simp only [hk, Option.isSome_none, Option.getD_some, Bool.false_eq_true, if_false]
    exact hstep2 _ rfl
  | some key =>
    have hdisk : diskBytes cfg nonce bytes
        = nonce ++ aesgcmEncrypt key nonce (storedPayload cfg bytes) := by
      simp [diskBytes, hk]
    rw [hdisk]
    simp only [hk, Option.isSome_some, Option.getD_some, if_true]
    have hlendisk : (nonce ++ aesgcmEncrypt key nonce (storedPayload cfg bytes)).length
        = 12 + ((storedPayload cfg bytes).length + 16) := by
      simp [List.length_append, aesgcmEncrypt_length, hn]
    have htake : (nonce ++ aesgcmEncrypt key nonce (storedPayload cfg bytes)).take 12
        = nonce := by
      rw [← hn]; exact List.take_left _ _
    have hdrop : (nonce ++ aesgcmEncrypt key nonce (storedPayload cfg bytes)).drop 12
        = aesgcmEncrypt key nonce (storedPayload cfg bytes) := by
      rw [← hn]; exact List.drop_left _ _
    rw [hlendisk, if_neg (by omega), htake, hdrop, aesgcmDecrypt_encrypt]
    exact hstep2 _ rfl

theorem atomicWriteBytes_badType (cfg : Config) (nonce bytes : List Nat)
    (hlen : bytes.length ≤ MAX_SINGLE_UPLOAD_BYTES)
    (hm : mimeAllowed (sniffMagic (bytes.take 512)) = false) :
    atomicWriteBytes cfg nonce bytes = .error .badContentType := by
  have hcopy : copyLoop none (toChunks bytes) 0 0 = .ok (bytes.length, bytes) := by
    have h := copyLoop_none_ok (toChunks bytes) 0 0
      (by rw [toChunks_sumLen]; omega)
    rw [toChunks_sumLen, toChunks_flatten, Nat.zero_add] at h
    exact h
  unfold atomicWriteBytes atomicWrite atomicWriteBody
  have hfc : failCopyIdx none = none := rfl
  rw [hfc, hcopy]
  simp only
  rw [toChunks_headD_take512]
  have hnone : ((none : Option WStep) = some WStep.compressFin) = False := by simp
  simp only [hnone, decide_False, Bool.and_false, Bool.false_eq_true, if_false]
  cases hk : cfg.encryptionKey with
  | some key => unfold finishWrite; simp [hm]
  | none => unfold finishWrite; simp [hm]

theorem atomicWriteBytes_tooLarge_iff (cfg : Config) (nonce bytes : List Nat) :
    atomicWriteBytes cfg nonce bytes = .error .tooLarge
      ↔ MAX_SINGLE_UPLOAD_BYTES < bytes.length := by
  constructor
  · intro h
    by_contra hbig
    push_neg at hbig
    cases hm : mimeAllowed (sniffMagic (bytes.take 512)) with
    | true =>
      rw [atomicWriteBytes_char cfg nonce bytes hbig hm] at h
      exact absurd h (by simp)
    | false =>
      rw [atomicWriteBytes_badType cfg nonce bytes hbig hm] at h
      simp at h
  · intro h
    have hcopy := copyLoop_none_tooLarge (toChunks bytes) 0 0
      (by simp [MAX_SINGLE_UPLOAD_BYTES]) (by rw [toChunks_sumLen]; omega)
    unfold atomicWriteBytes atomicWrite atomicWriteBody
    have hfc : failCopyIdx none = none := rfl
    rw [hfc, hcopy]

/-- Inversion of a successful fault-free write. -/
theorem atomicWriteBytes_ok_char (cfg : Config) (nonce bytes : List Nat) (w : WriteOk)
    (h : atomicWriteBytes cfg nonce bytes = .ok w) :
    bytes.length ≤ MAX_SINGLE_UPLOAD_BYTES
    ∧ mimeAllowed (sniffMagic (bytes.take 512)) = true
    ∧ w = ⟨bytes.length, sniffMagic (bytes.take 512), sha256Hex bytes,
           shouldCompressBytes cfg bytes, cfg.encryptionKey.isSome,
           if cfg.encryptionKey.isSome then some nonce else none,
           diskBytes cfg nonce bytes⟩ := by
  have hlen : bytes.length ≤ MAX_SINGLE_UPLOAD_BYTES := by
    by_contra hbig
    push_neg at hbig
    rw [(atomicWriteBytes_tooLarge_iff cfg nonce bytes).mpr hbig] at h
    exact absurd h (by simp)
  have hm : mimeAllowed (sniffMagic (bytes.take 512)) = true := by
    cases hm0 : mimeAllowed (sniffMagic (bytes.take 512)) with
    | true => rfl
    | false =>
      rw [atomicWriteBytes_badType cfg nonce bytes hlen hm0] at h
      exact absurd h (by simp)
  refine ⟨hlen, hm, ?_⟩
  rw [atomicWriteBytes_char cfg nonce bytes hlen hm] at h
  exact (Except.ok.injEq _ _).mp h.symm

/-- After a `tooLarge` abort on a chunk prefix, the remaining chunks of the
source are never consumed: any continuation gives the identical abort. -/
theorem copyLoop_tooLarge_append (pre rest : List (List Nat)) :
    ∀ (k size : Nat),
      copyLoop none pre k size = .error .tooLarge →
      copyLoop none (pre ++ rest) k size = .error .tooLarge := by
  induction pre with
  | nil => intro k size h; exact absurd h (by simp [copyLoop])
  | cons c pre' ih =>
    intro k size h
    simp only [copyLoop, reduceCtorEq, if_false] at h ⊢
    by_cases hbig : MAX_SINGLE_UPLOAD_BYTES < size + c.length
    · rw [if_pos hbig]
    · rw [if_neg hbig] at h ⊢
      cases hrec : copyLoop none pre' (k + 1) (size + c.length) with
      | ok p => rw [hrec] at h; exact absurd h (by simp)
      | error e =>
        rw [hrec] at h
        have he : e = WriteErr.tooLarge := by simpa using h
        have hih := ih (k + 1) (size + c.length) (he ▸ hrec)
        simp only [List.append_eq] at hih ⊢
        rw [hih]

theorem finishWrite_fs_or (failAt : Option WStep) (firstChunk : List Nat)
    (size : Nat) (checksum : List Nat) (compressed encrypted : Bool)
    (nonceOut : Option (List Nat)) (disk : List Nat) :
    (finishWrite failAt firstChunk size checksum compressed encrypted
        nonceOut disk).2 = ⟨true, false⟩
    ∨ ((∃ w, (finishWrite failAt firstChunk size checksum compressed encrypted
          nonceOut disk).1 = .ok w)
       ∧ (finishWrite failAt firstChunk size checksum compressed encrypted
          nonceOut disk).2 = ⟨false, true⟩) := by
  unfold finishWrite
  split
  · left; rfl
  · split
    · left; rfl
    · split
      · left; rfl
      · right; exact ⟨⟨_, rfl⟩, rfl⟩

theorem atomicWriteBody_fs_or (cfg : Config) (failAt : Option WStep)
    (nonce : List Nat) (chunks : List (List Nat)) :
    (atomicWriteBody cfg failAt nonce chunks).2 = ⟨true, false⟩
    ∨ ((∃ w, (atomicWriteBody cfg failAt nonce chunks).1 = .ok w)
       ∧ (atomicWriteBody cfg failAt nonce chunks).2 = ⟨false, true⟩) := by
  unfold atomicWriteBody
  split
  · left; rfl
  · simp only
    split
    · left; rfl
    · split
      · split
        · left; rfl
        · exact finishWrite_fs_or _ _ _ _ _ _ _ _
      · exact finishWrite_fs_or _ _ _ _ _ _ _ _

/-- Every raised error of the writer body leaves the temp file present and
nothing at the destination name (its `Fs` component is `⟨true, false⟩`). -/
theorem atomicWriteBody_error_fs (cfg : Config) (failAt : Option WStep)
    (nonce : List Nat) (chunks : List (List Nat)) (e : WriteErr)
    (h : (atomicWriteBody cfg failAt nonce chunks).1 = .error e) :
    (atomicWriteBody cfg failAt nonce chunks).2 = ⟨true, false⟩ := by
  rcases atomicWriteBody_fs_or cfg failAt nonce chunks with hfs | ⟨⟨w, hw⟩, _⟩
  · exact hfs
  · rw [hw] at h
    exact absurd h (by simp)

/-! ### Invariant of the concurrent-upload model -/

theorem qInit_inv (sz : Nat) : QInv sz qInit := by
  simp [QInv, qInit]

set_option maxHeartbeats 2000000 in
theorem qstep_inv (cap sz : Nat) (hcap : 1 ≤ cap) (h2 : cap < sz + sz)
    (hle : sz ≤ cap) (s : QuotaSys) (t : Bool) (h : QInv sz s) :
    QInv sz (qstep cap sz s t) := by
  obtain ⟨usage, p1, a1, p2, a2⟩ := s
  obtain ⟨hu, ha1, ha2, hnb, h14, h24, hp1, hp2⟩ := h
  simp only [QInv] at *
  cases t
  · interval_cases p2 <;>
      simp only [qstep] <;> split_ifs <;>
      simp_all <;> omega
  · interval_cases p1 <;>
      simp only [qstep] <;> split_ifs <;>
      simp_all <;> omega

theorem runSched_inv (cap sz : Nat) (hcap : 1 ≤ cap) (h2 : cap < sz + sz)
    (hle : sz ≤ cap) :
    ∀ (sched : List Bool) (s : QuotaSys),
      QInv sz s → QInv sz (sched.foldl (qstep cap sz) s) := by
  intro sched
  induction sched with
  | nil => intro s h; exact h
  | cons t rest ih =>
    intro s h
    exact ih _ (qstep_inv cap sz hcap h2 hle s t h)

theorem isPrefixOf_cons_eq {a b : Nat} {l₁ l₂ : List Nat}
    (h : (a :: l₁).isPrefixOf (b :: l₂) = true) : a = b := by
  simp only [List.isPrefixOf, Bool.and_eq_true, beq_iff_eq] at h
  exact h.1

/-- A byte string sniffed as `image/*` starts with the PNG or JPEG magic, so
it cannot begin with the Zstandard frame magic. -/
theorem image_not_zstd (bytes : List Nat)
    (h : strStartsWith (sniffMagic (bytes.take 512)) "image/" = true) :
    zstdMagic.isPrefixOf bytes = false := by
  by_cases hpdf : pdfMagic.isPrefixOf (bytes.take 512) = true
  · unfold sniffMagic at h
    rw [if_pos hpdf] at h
    exact absurd h (by decide)
  · have himg : pngMagic.isPrefixOf (bytes.take 512) = true
        ∨ jpegMagic.isPrefixOf (bytes.take 512) = true := by
      unfold sniffMagic at h
      rw [if_neg hpdf] at h
      by_cases hpng : pngMagic.isPrefixOf (bytes.take 512) = true
      · exact Or.inl hpng
      · rw [if_neg hpng] at h
        by_cases hjpg : jpegMagic.isPrefixOf (bytes.take 512) = true
        · exact Or.inr hjpg
        · rw [if_neg hjpg] at h
          split at h
          · exact absurd h (by decide)
          · exact absurd h (by decide)
    cases bytes with
    | nil =>
      rcases himg with hm | hm <;> simp [pngMagic, jpegMagic, List.isPrefixOf] at hm
    | cons b bs =>
      have ht : (b :: bs).take 512 = b :: bs.take 511 := rfl
      rw [ht] at himg
      have hb : b = 0x89 ∨ b = 0xFF := by
        rcases himg with hm | hm
        · simp only [pngMagic] at hm
          exact Or.inl (isPrefixOf_cons_eq hm).symm
        · simp only [jpegMagic] at hm
          exact Or.inr (isPrefixOf_cons_eq hm).symm
      rcases hb with hb | hb <;>
        simp [zstdMagic, List.isPrefixOf, hb]

/-! ### Claims -/

/-- C1: Round-trip — for every byte string whose extension is allow-listed,
whose sniffed content type matches an allow-listed MIME prefix, and whose
length does not exceed the per-object ceiling (empty string and exact
boundary included), writing it through the upload pipeline and reading it
back through the object reader returns exactly the original bytes, for every
combination of compression-enabled and encryption-key-configured settings
fixed across the write and the read. -/
theorem C1_roundtrip (cfg : Config) (userId : Nat) (filename visibility : String)
    (nonce bytes : List Nat)
    (hext : extensionAllowed filename = true)
    (hmime : mimeAllowed (sniffMagic (bytes.take 512)) = true)
    (hlen : bytes.length ≤ MAX_SINGLE_UPLOAD_BYTES)
    (hn : nonce.length = 12) :
    ∃ (fileObj : FileRec) (disk : List Nat),
      uploadFile cfg userId [] [] filename visibility nonce bytes
        = (.ok (fileObj, disk), some disk)
      ∧ downloadFile cfg userId (some fileObj) (some disk)
        = .ok ⟨bytes, sha256Hex bytes⟩ := by
  have hw := atomicWriteBytes_char cfg nonce bytes hlen hmime
  refine ⟨mkFileRec userId filename visibility
      ⟨bytes.length, sniffMagic (bytes.take 512), sha256Hex bytes,
       shouldCompressBytes cfg bytes, cfg.encryptionKey.isSome,
       if cfg.encryptionKey.isSome then some nonce else none,
       diskBytes cfg nonce bytes⟩,
    diskBytes cfg nonce bytes, ?_, ?_⟩
  · unfold uploadFile
    have h0 : userStorageBytes [] = 0 := rfl
    rw [h0, if_neg (by simp [MAX_USER_TOTAL_BYTES]), if_neg (by simp [hext]), hw]
    have hq : ¬ (MAX_USER_TOTAL_BYTES < 0 + bytes.length) := by
      simp only [MAX_USER_TOTAL_BYTES]
      simp only [MAX_SINGLE_UPLOAD_BYTES] at hlen
      omega
    simp only [Nat.zero_add] at hq
    simp [hq]
  · have hauth : authorizeFileAccess userId
        (mkFileRec userId filename visibility
          ⟨bytes.length, sniffMagic (bytes.take 512), sha256Hex bytes,
           shouldCompressBytes cfg bytes, cfg.encryptionKey.isSome,
           if cfg.encryptionKey.isSome then some nonce else none,
           diskBytes cfg nonce bytes⟩) = true := by
      simp [authorizeFileAccess, mkFileRec]
    have hro := readObject_of_write cfg nonce bytes
      (mkFileRec userId filename visibility
        ⟨bytes.length, sniffMagic (bytes.take 512), sha256Hex bytes,
         shouldCompressBytes cfg bytes, cfg.encryptionKey.isSome,
         if cfg.encryptionKey.isSome then some nonce else none,
         diskBytes cfg nonce bytes⟩)
      hn hlen (by simp [mkFileRec]) (by simp [mkFileRec]) (by simp [mkFileRec])
    simp only [mkFileRec] at hauth hro
    simp [downloadFile, hauth, hro, mkFileRec]

/-- C1 witness: upload and download `b"hello world"` as `test.txt` with
compression on and a key configured. -/
theorem C1_roundtrip_witness :
    extensionAllowed "test.txt" = true
    ∧ mimeAllowed (sniffMagic (([104, 101, 108, 108, 111, 32, 119, 111, 114, 108, 100] :
        List Nat).take 512)) = true
    ∧ ([104, 101, 108, 108, 111, 32, 119, 111, 114, 108, 100] : List Nat).length
        ≤ MAX_SINGLE_UPLOAD_BYTES
    ∧ (List.range 12).length = 12
    ∧ (∃ (fileObj : FileRec) (disk : List Nat),
        uploadFile ⟨true, some (List.range 32)⟩ 1 [] [] "test.txt" "private"
            (List.range 12) [104, 101, 108, 108, 111, 32, 119, 111, 114, 108, 100]
          = (.ok (fileObj, disk), some disk)
        ∧ downloadFile ⟨true, some (List.range 32)⟩ 1 (some fileObj) (some disk)
          = .ok ⟨[104, 101, 108, 108, 111, 32, 119, 111, 114, 108, 100],
                 sha256Hex [104, 101, 108, 108, 111, 32, 119, 111, 114, 108, 100]⟩) :=
  ⟨by decide, by decide, by decide, by decide,
   C1_roundtrip ⟨true, some (List.range 32)⟩ 1 "test.txt" "private" (List.range 12)
     [104, 101, 108, 108, 111, 32, 119, 111, 114, 108, 100]
     (by decide) (by decide) (by decide) (by decide)⟩

/-- C3: Write atomicity — for every failure injected at (or raised by) the
copy, compressor-finalize, encrypt, fsync, content-type validation, or
rename step, `_atomic_write` deletes the temporary file before the error
propagates, leaving nothing at the destination name and no dangling temp
file. -/
theorem C3_atomicity (cfg : Config) (failAt : Option WStep) (nonce : List Nat)
    (chunks : List (List Nat)) (e : WriteErr)
    (h : (atomicWrite cfg failAt nonce chunks).1 = .error e) :
    (atomicWrite cfg failAt nonce chunks).2 = ⟨false, false⟩ := by
  unfold atomicWrite at h ⊢
  rcases hb : atomicWriteBody cfg failAt nonce chunks with ⟨r, fs⟩
  rw [hb] at h
  cases r with
  | ok w =>
    have hcontra : (Except.ok w : Except WriteErr WriteOk) = Except.error e := h
    exact absurd hcontra (by simp)
  | error e' =>
    have hfs := atomicWriteBody_error_fs cfg failAt nonce chunks e' (by rw [hb])
    rw [hb] at hfs
    simp only at hfs
    subst hfs
    rfl

/-- C3 witness: a rename failure on a small text write aborts with the temp
file removed and no destination artifact. -/
theorem C3_atomicity_witness :
    (atomicWrite ⟨false, none⟩ (some .renameStep) [] [[104]]).1
        = .error (.ioFailure .renameStep)
    ∧ (atomicWrite ⟨false, none⟩ (some .renameStep) [] [[104]]).2 = ⟨false, false⟩ :=
  ⟨by decide,
   C3_atomicity ⟨false, none⟩ (some .renameStep) [] [[104]]
     (.ioFailure .renameStep) (by decide)⟩

/-- C6: Oversize abort — an upload is rejected as too large exactly when its
plaintext length exceeds the per-object ceiling, and once the running
counter exceeds the ceiling on some chunk the abort is identical no matter
what further chunks the source would have produced (they are never read). -/
theorem C6_oversize_abort (cfg : Config) (nonce bytes : List Nat) :
    (atomicWriteBytes cfg nonce bytes = .error .tooLarge
      ↔ MAX_SINGLE_UPLOAD_BYTES < bytes.length)
    ∧ (∀ (pre rest : List (List Nat)) (k size : Nat),
        copyLoop none pre k size = .error .tooLarge →
        copyLoop none (pre ++ rest) k size = .error .tooLarge) :=
  ⟨atomicWriteBytes_tooLarge_iff cfg nonce bytes,
   fun pre rest k size h => copyLoop_tooLarge_append pre rest k size h⟩

/-- C6 witness: a chunk pushing the counter past the ceiling aborts, and the
abort is unchanged by appending further chunks. -/
theorem C6_oversize_abort_witness :
    copyLoop none [[0]] 0 MAX_SINGLE_UPLOAD_BYTES = .error .tooLarge
    ∧ copyLoop none ([[0]] ++ [[1]]) 0 MAX_SINGLE_UPLOAD_BYTES = .error .tooLarge :=
  ⟨by decide,
   (C6_oversize_abort ⟨false, none⟩ [] []).2 [[0]] [[1]] 0 MAX_SINGLE_UPLOAD_BYTES
     (by decide)⟩

/-- C9: Access policy — a public object is readable by every caller; for any
other visibility a read is authorized exactly when the caller is the owner;
an unauthorized read is rejected with the access-denied error and the
response is computed without consulting the on-disk bytes. -/
theorem C9_access_policy (cfg : Config) (userId : Nat) (fileObj : FileRec) :
    (fileObj.visibility = "public" → authorizeFileAccess userId fileObj = true)
    ∧ (fileObj.visibility ≠ "public" →
        (authorizeFileAccess userId fileObj = true ↔ fileObj.ownerId = userId))
    ∧ (authorizeFileAccess userId fileObj = false →
        ∀ diskA diskB : Option (List Nat),
          downloadFile cfg userId (some fileObj) diskA = .error .notAuthorized
          ∧ downloadFile cfg userId (some fileObj) diskB = .error .notAuthorized) := by
  refine ⟨?_, ?_, ?_⟩
  · intro h
    simp [authorizeFileAccess, h]
  · intro h
    simp [authorizeFileAccess, h]
  · intro h diskA diskB
    constructor <;> simp [downloadFile, h]

/-- C9 witness: a private object of owner 1 is denied to caller 2,
identically for two different on-disk contents. -/
theorem C9_access_policy_witness :
    authorizeFileAccess 2 ⟨1, "f.txt", "private", none, none, none, none, none⟩ = false
    ∧ downloadFile ⟨false, none⟩ 2
        (some ⟨1, "f.txt", "private", none, none, none, none, none⟩) (some [1, 2])
        = .error .notAuthorized :=
  ⟨by decide,
   ((C9_access_policy ⟨false, none⟩ 2
       ⟨1, "f.txt", "private", none, none, none, none, none⟩).2.2 (by decide)
     (some [1, 2]) none).1⟩

/-- C7 counterexample: the empty upload with compression globally enabled is
sniffed `text/plain` (not `image/*`), yet the writer records
`is_compressed = false` — the claimed "compress iff enabled and not image"
biconditional fails on the empty byte string (the decision is taken inside
the first-chunk branch, which never runs). -/
theorem C7_counterexample :
    (⟨true, none⟩ : Config).enableCompression = true
    ∧ strStartsWith (sniffMagic (([] : List Nat).take 512)) "image/" = false
    ∧ (atomicWriteBytes ⟨true, none⟩ [] []).map WriteOk.compressed ≠ .ok true
    ∧ (atomicWriteBytes ⟨true, none⟩ [] []).map WriteOk.compressed = .ok false := by
  decide

/-- C7 (amended): the writer compresses iff compression is enabled, the
input is non-empty, and the type sniffed from the first chunk does not start
with `image/`; the recorded flag equals this decision, and an image-sniffed
upload (unencrypted) never places a Zstandard frame at the destination. -/
theorem C7_compression_policy (cfg : Config) (nonce bytes : List Nat) (w : WriteOk)
    (h : atomicWriteBytes cfg nonce bytes = .ok w) :
    w.compressed = (!bytes.isEmpty && cfg.enableCompression
        && !(strStartsWith (sniffMagic (bytes.take 512)) "image/"))
    ∧ (strStartsWith (sniffMagic (bytes.take 512)) "image/" = true →
        cfg.encryptionKey = none → zstdMagic.isPrefixOf w.disk = false) := by
  obtain ⟨hlen, hm, hwE⟩ := atomicWriteBytes_ok_char cfg nonce bytes w h
  subst hwE
  refine ⟨rfl, ?_⟩
  intro himg hk
  have hsc : shouldCompressBytes cfg bytes = false := by
    simp [shouldCompressBytes, himg]
  have hdisk : diskBytes cfg nonce bytes = bytes := by
    simp [diskBytes, hk, storedPayload, hsc]
  show zstdMagic.isPrefixOf (diskBytes cfg nonce bytes) = false
  rw [hdisk]
  exact image_not_zstd bytes himg

/-- C7 witness: a PNG-sniffed upload with compression enabled is stored
uncompressed, byte-identical, and frame-free. -/
theorem C7_compression_policy_witness :
    atomicWriteBytes ⟨true, none⟩ []
        [0x89, 0x50, 0x4E, 0x47, 0x0D, 0x0A, 0x1A, 0x0A, 1, 2, 3]
      = .ok ⟨11, "image/png",
             [0x89, 0x50, 0x4E, 0x47, 0x0D, 0x0A, 0x1A, 0x0A, 1, 2, 3],
             false, false, none,
             [0x89, 0x50, 0x4E, 0x47, 0x0D, 0x0A, 0x1A, 0x0A, 1, 2, 3]⟩
    ∧ (⟨11, "image/png",
        [0x89, 0x50, 0x4E, 0x47, 0x0D, 0x0A, 0x1A, 0x0A, 1, 2, 3],
        false, false, none,
        [0x89, 0x50, 0x4E, 0x47, 0x0D, 0x0A, 0x1A, 0x0A, 1, 2, 3]⟩ : WriteOk).compressed
        = (!([0x89, 0x50, 0x4E, 0x47, 0x0D, 0x0A, 0x1A, 0x0A, 1, 2, 3] : List Nat).isEmpty
            && (⟨true, none⟩ : Config).enableCompression
            && !(strStartsWith (sniffMagic (([0x89, 0x50, 0x4E, 0x47, 0x0D, 0x0A, 0x1A,
                0x0A, 1, 2, 3] : List Nat).take 512)) "image/"))
    ∧ zstdMagic.isPrefixOf
        (⟨11, "image/png",
          [0x89, 0x50, 0x4E, 0x47, 0x0D, 0x0A, 0x1A, 0x0A, 1, 2, 3],
          false, false, none,
          [0x89, 0x50, 0x4E, 0x47, 0x0D, 0x0A, 0x1A, 0x0A, 1, 2, 3]⟩ : WriteOk).disk
        = false :=
  ⟨by decide,
   (C7_compression_policy ⟨true, none⟩ []
      [0x89, 0x50, 0x4E, 0x47, 0x0D, 0x0A, 0x1A, 0x0A, 1, 2, 3] _ (by decide)).1,
   (C7_compression_policy ⟨true, none⟩ []
      [0x89, 0x50, 0x4E, 0x47, 0x0D, 0x0A, 0x1A, 0x0A, 1, 2, 3] _ (by decide)).2
     (by decide) rfl⟩

/-- C4 counterexample: a row whose recorded size is 0 contributes its
on-disk size under the code's truthiness test (`if f.size:`), while the
claim's usage function ("fall back when the size field is absent") counts 0;
with such a row the pre-check rejects an upload although the claimed usage
is far below the cap. -/
theorem C4_counterexample :
    userStorageBytesSpec [⟨some 0, some MAX_USER_TOTAL_BYTES⟩] = 0
    ∧ userStorageBytes [⟨some 0, some MAX_USER_TOTAL_BYTES⟩] = MAX_USER_TOTAL_BYTES
    ∧ (uploadFile ⟨false, none⟩ 1 [⟨some 0, some MAX_USER_TOTAL_BYTES⟩] []
        "a.txt" "private" [] [104]).1 = .error .quotaPre := by
  decide

/-- C4 (amended): usage sums recorded sizes, falling back to the on-disk
size when the size field is absent *or recorded as zero*; the pre-check
rejects iff that usage already meets-or-exceeds the cap, and, once the
pre-check and transfer succeed, the post-check deletes the artifact and
rejects (persisting nothing) iff the recomputed usage plus the new object's
size would exceed the cap. -/
theorem C4_quota_admission (cfg : Config) (userId : Nat)
    (filesBefore filesAfter : List StoredRec) (filename visibility : String)
    (nonce bytes : List Nat) (w : WriteOk)
    (hext : extensionAllowed filename = true)
    (hw : atomicWriteBytes cfg nonce bytes = .ok w) :
    ((uploadFile cfg userId filesBefore filesAfter filename visibility nonce bytes).1
        = .error .quotaPre ↔ MAX_USER_TOTAL_BYTES ≤ userStorageBytes filesBefore)
    ∧ (userStorageBytes filesBefore < MAX_USER_TOTAL_BYTES →
        uploadFile cfg userId filesBefore filesAfter filename visibility nonce bytes
          = if MAX_USER_TOTAL_BYTES < userStorageBytes filesAfter + w.size
            then (.error .quotaPost, none)
            else (.ok (mkFileRec userId filename visibility w, w.disk), some w.disk)) := by
  constructor
  · constructor
    · intro h
      by_contra hq
      push_neg at hq
      unfold uploadFile at h
      rw [if_neg (by omega), if_neg (by simp [hext]), hw] at h
      simp only at h
      split at h <;> simp at h
    · intro h
      unfold uploadFile
      rw [if_pos h]
  · intro hq
    unfold uploadFile
    rw [if_neg (by omega), if_neg (by simp [hext]), hw]

/-- C4 witness: a fresh owner uploads one byte; the pre-check admits, the
post-check commits. -/
theorem C4_quota_admission_witness :
    extensionAllowed "a.txt" = true
    ∧ atomicWriteBytes ⟨false, none⟩ [] [104]
        = .ok ⟨1, "text/plain", [104], false, false, none, [104]⟩
    ∧ userStorageBytes [] < MAX_USER_TOTAL_BYTES
    ∧ uploadFile ⟨false, none⟩ 1 [] [] "a.txt" "private" [] [104]
        = if MAX_USER_TOTAL_BYTES < userStorageBytes []
              + (⟨1, "text/plain", [104], false, false, none, [104]⟩ : WriteOk).size
          then (.error .quotaPost, none)
          else (.ok (mkFileRec 1 "a.txt" "private"
                  ⟨1, "text/plain", [104], false, false, none, [104]⟩, [104]), some [104]) :=
  ⟨by decide, by decide, by decide,
   (C4_quota_admission ⟨false, none⟩ 1 [] [] "a.txt" "private" [] [104]
      ⟨1, "text/plain", [104], false, false, none, [104]⟩
      (by decide) (by decide)).2 (by decide)⟩

/-- C2 counterexample: an unencrypted, uncompressed object whose on-disk
bytes were mutated after commit is served with success and the *stored*
digest in the header — the reader never recomputes the checksum, so no
integrity-failure error is raised. -/
theorem C2_counterexample :
    sha256Hex [9, 9] ≠ sha256Hex [104, 101]
    ∧ downloadFile ⟨false, none⟩ 1
        (some ⟨1, "a.txt", "private", some 2, some (sha256Hex [104, 101]),
               some "text/plain", some false, some false⟩)
        (some [9, 9])
      = .ok ⟨[9, 9], sha256Hex [104, 101]⟩ := by
  decide

/-- C2 (amended): the reader never recomputes the plaintext checksum; it
echoes the stored digest in the response header. For an unencrypted,
uncompressed object any on-disk contents whatsoever — in particular bytes
mutated after commit — are returned with success, regardless of the stored
digest; the only corruption detection on read is AES-GCM authentication for
encrypted objects. -/
theorem C2_no_checksum_recompute (cfg : Config) (userId : Nat) (fileObj : FileRec)
    (disk : List Nat)
    (hauth : authorizeFileAccess userId fileObj = true)
    (henc : fileObj.isEncrypted = some false)
    (hcomp : fileObj.isCompressed = some false)
    (hlen : disk.length ≤ MAX_INMEMORY_BYTES) :
    downloadFile cfg userId (some fileObj) (some disk)
      = .ok ⟨disk, fileObj.checksumSha256.getD []⟩ := by
  simp [downloadFile, hauth, readObject, hlen, readSmall, henc, hcomp]

/-- C2 witness: serving a one-byte object whose stored digest belongs to a
different byte string succeeds anyway. -/
theorem C2_no_checksum_recompute_witness :
    authorizeFileAccess 7 ⟨7, "b.txt", "private", some 1, some [1, 2, 3],
        none, some false, some false⟩ = true
    ∧ downloadFile ⟨false, none⟩ 7
        (some ⟨7, "b.txt", "private", some 1, some [1, 2, 3], none,
               some false, some false⟩)
        (some [5])
      = .ok ⟨[5], [1, 2, 3]⟩ :=
  ⟨by decide,
   C2_no_checksum_recompute ⟨false, none⟩ 7
     ⟨7, "b.txt", "private", some 1, some [1, 2, 3], none, some false, some false⟩
     [5] (by decide) (by decide) (by decide) (by decide)⟩

/-- C8 counterexample: a small legacy object (encryption flag NULL) whose
on-disk bytes are a valid sealed ciphertext under the configured key is
served raw by the in-memory reader — `bool(None)` is `False`, so no
opportunistic decryption is attempted even though it would succeed. -/
theorem C8_counterexample :
    aesgcmDecrypt (List.range 32)
        ((List.range 12 ++ aesgcmEncrypt (List.range 32) (List.range 12)
            [104, 105]).take 12)
        ((List.range 12 ++ aesgcmEncrypt (List.range 32) (List.range 12)
            [104, 105]).drop 12)
      = .ok [104, 105]
    ∧ downloadFile ⟨false, some (List.range 32)⟩ 1
        (some ⟨1, "a.txt", "private", none, none, none, none, none⟩)
        (some (List.range 12 ++ aesgcmEncrypt (List.range 32) (List.range 12)
            [104, 105]))
      = .ok ⟨List.range 12 ++ aesgcmEncrypt (List.range 32) (List.range 12)
            [104, 105], []⟩
    ∧ (List.range 12 ++ aesgcmEncrypt (List.range 32) (List.range 12) [104, 105])
        ≠ [104, 105] := by
  decide

/-- C8 (amended): only the streaming reader performs the opportunistic
attempt for a NULL encryption flag — with a key configured and at least 12
bytes on disk, a failed decryption makes it rewind to the start and proceed
exactly as for a never-encrypted object; the in-memory reader treats a NULL
flag as unencrypted without attempting decryption. -/
theorem C8_legacy_fallback (cfg : Config) (key : List Nat) (fileObj : FileRec)
    (disk : List Nat)
    (hkey : cfg.encryptionKey = some key)
    (henc : fileObj.isEncrypted = none)
    (h12 : 12 ≤ disk.length)
    (hfail : ∃ msg, aesgcmDecrypt key (disk.take 12) (disk.drop 12) = .error msg) :
    streamRead cfg fileObj disk
      = streamRead cfg { fileObj with isEncrypted := some false } disk
    ∧ readSmall cfg fileObj disk
      = readSmall cfg { fileObj with isEncrypted := some false } disk := by
  obtain ⟨msg, hmsg⟩ := hfail
  constructor
  · unfold streamRead
    simp [henc, hkey, hmsg, h12]
  · unfold readSmall
    simp [henc]

/-- C8 witness: a 12-byte-plus legacy object that fails authentication is
read identically to a never-encrypted one, on both reader paths. -/
theorem C8_legacy_fallback_witness :
    (⟨false, some (List.range 32)⟩ : Config).encryptionKey = some (List.range 32)
    ∧ (⟨1, "f", "private", none, none, none, none, none⟩ : FileRec).isEncrypted = none
    ∧ 12 ≤ (List.replicate 13 (0 : Nat)).length
    ∧ aesgcmDecrypt (List.range 32) ((List.replicate 13 (0 : Nat)).take 12)
        ((List.replicate 13 (0 : Nat)).drop 12) = .error "InvalidTag"
    ∧ streamRead ⟨false, some (List.range 32)⟩
        ⟨1, "f", "private", none, none, none, none, none⟩ (List.replicate 13 0)
      = streamRead ⟨false, some (List.range 32)⟩
        ⟨1, "f", "private", none, none, none, none, some false⟩ (List.replicate 13 0)
    ∧ readSmall ⟨false, some (List.range 32)⟩
        ⟨1, "f", "private", none, none, none, none, none⟩ (List.replicate 13 0)
      = readSmall ⟨false, some (List.range 32)⟩
        ⟨1, "f", "private", none, none, none, none, some false⟩ (List.replicate 13 0) :=
  ⟨rfl, rfl, by decide, by decide,
   (C8_legacy_fallback ⟨false, some (List.range 32)⟩ (List.range 32)
      ⟨1, "f", "private", none, none, none, none, none⟩ (List.replicate 13 0)
      rfl rfl (by decide) ⟨"InvalidTag", by decide⟩).1,
   (C8_legacy_fallback ⟨false, some (List.range 32)⟩ (List.range 32)
      ⟨1, "f", "private", none, none, none, none, none⟩ (List.replicate 13 0)
      rfl rfl (by decide) ⟨"InvalidTag", by decide⟩).2⟩

theorem streamRead_rawCorrupt (cfg : Config) (fileObj : FileRec) (disk : List Nat)
    (henc : fileObj.isEncrypted = some false)
    (hcomp : fileObj.isCompressed = some true)
    (hbad : zstdMagic.isPrefixOf disk = false) :
    streamRead cfg fileObj disk = .error .streamAbort := by
  unfold streamRead
  simp [henc, hcomp, zstdDecompressUnbounded, hbad]

theorem readObject_large (cfg : Config) (fileObj : FileRec) (disk : List Nat)
    (h : ¬ disk.length ≤ MAX_INMEMORY_BYTES) :
    readObject cfg fileObj disk = streamRead cfg fileObj disk := by
  unfold readObject
  rw [if_neg h]

theorem downloadFile_readErr (cfg : Config) (userId : Nat) (fileObj : FileRec)
    (disk : List Nat) (e : ReadErr)
    (hauth : authorizeFileAccess userId fileObj = true)
    (h : readObject cfg fileObj disk = .error e) :
    downloadFile cfg userId (some fileObj) (some disk) = .error e := by
  simp [downloadFile, hauth, h]

/-- C10 counterexample: an object above the in-memory threshold, marked
compressed but unencrypted, whose on-disk bytes are not a Zstandard frame,
makes the streaming reader raise (the `stream_reader` branch has no
fallback) instead of serving the bytes as-is. -/
theorem C10_counterexample :
    downloadFile ⟨false, none⟩ 1
      (some ⟨1, "big.bin", "public", some 5, some [7], some "text/plain",
             some true, some false⟩)
      (some (List.replicate 52428801 0))
      = .error .streamAbort := by
  have hgt : ¬ ((List.replicate 52428801 (0 : Nat)).length ≤ MAX_INMEMORY_BYTES) := by
    rw [List.length_replicate 52428801 0]
    simp [MAX_INMEMORY_BYTES]
  have hpre : zstdMagic.isPrefixOf (List.replicate 52428801 (0 : Nat)) = false := by
    have hstep : List.replicate 52428801 (0 : Nat) = 0 :: List.replicate 52428800 0 := rfl
    rw [hstep]
    simp [zstdMagic, List.isPrefixOf]
  apply downloadFile_readErr _ _ _ _ _ (by decide)
  rw [readObject_large _ _ _ hgt]
  exact streamRead_rawCorrupt _ _ _ rfl rfl hpre

/-- C10 (amended): when the object's metadata marks it compressed and its
bytes are processed in memory (in-memory path, at or below the 50 MiB
on-disk threshold), a failed Zstandard decompression is swallowed and the
undecompressed bytes are returned with success; only the streaming raw-file
path (above the threshold, not decrypted in memory) aborts on a corrupt
frame. -/
theorem C10_decompress_fallback (cfg : Config) (userId : Nat) (fileObj : FileRec)
    (disk : List Nat)
    (hauth : authorizeFileAccess userId fileObj = true)
    (henc : fileObj.isEncrypted = some false)
    (hcomp : fileObj.isCompressed = some true)
    (hbad : zstdMagic.isPrefixOf disk = false)
    (hlen : disk.length ≤ MAX_INMEMORY_BYTES) :
    downloadFile cfg userId (some fileObj) (some disk)
      = .ok ⟨disk, fileObj.checksumSha256.getD []⟩ := by
  simp [downloadFile, hauth, readObject, hlen, readSmall, henc, hcomp,
        zstdDecompress, hbad]

/-- C10 witness: a small compressed-marked object with garbage bytes is
served as-is with success. -/
theorem C10_decompress_fallback_witness :
    authorizeFileAccess 1 ⟨1, "c.txt", "private", some 9, some [4, 5],
        none, some true, some false⟩ = true
    ∧ zstdMagic.isPrefixOf [1, 2, 3] = false
    ∧ downloadFile ⟨false, none⟩ 1
        (some ⟨1, "c.txt", "private", some 9, some [4, 5], none,
               some true, some false⟩)
        (some [1, 2, 3])
      = .ok ⟨[1, 2, 3], [4, 5]⟩ :=
  ⟨by decide, by decide,
   C10_decompress_fallback ⟨false, none⟩ 1
     ⟨1, "c.txt", "private", some 9, some [4, 5], none, some true, some false⟩
     [1, 2, 3] (by decide) (by decide) (by decide) (by decide) (by decide)⟩

/-- C5 counterexample: in `upload_file` the quota pre-check (step index 0)
and the atomic write (step index 1) execute before the per-user lock is
acquired — they are not inside the critical section; only the
post-check-plus-commit (step index 3) is. -/
theorem C5_counterexample :
    uploadSteps.get? 0 = some .preCheck
    ∧ uploadSteps.get? 1 = some .writeStep
    ∧ uploadSteps.get? 3 = some .postCheckCommit
    ∧ insideLock uploadSteps 0 = false
    ∧ insideLock uploadSteps 1 = false
    ∧ insideLock uploadSteps 3 = true := by
  decide

/-- C5 (amended): only the post-check-then-commit-metadata sequence of
`upload_file` runs under the per-owner critical section — the pre-check and
the write run before the lock is acquired; nevertheless, for a cap of N ≥ 1
bytes and two concurrent uploads of N/2+1 bytes each by the same owner,
under every interleaving in which both requests finish, exactly one commits
and the other is rejected with its artifact removed. -/
theorem C5_quota_serialization (N : Nat) (hN : 1 ≤ N) (sched : List Bool)
    (h1 : (runSched N (N / 2 + 1) sched).phase1 = 3
          ∨ (runSched N (N / 2 + 1) sched).phase1 = 4)
    (h2 : (runSched N (N / 2 + 1) sched).phase2 = 3
          ∨ (runSched N (N / 2 + 1) sched).phase2 = 4) :
    (insideLock uploadSteps 3 = true
      ∧ insideLock uploadSteps 0 = false
      ∧ insideLock uploadSteps 1 = false)
    ∧ (((runSched N (N / 2 + 1) sched).phase1 = 3
          ∧ (runSched N (N / 2 + 1) sched).phase2 = 4
          ∧ (runSched N (N / 2 + 1) sched).art2 = false)
       ∨ ((runSched N (N / 2 + 1) sched).phase2 = 3
          ∧ (runSched N (N / 2 + 1) sched).phase1 = 4
          ∧ (runSched N (N / 2 + 1) sched).art1 = false)) := by
  have hinv := runSched_inv N (N / 2 + 1) hN (by omega) (by omega) sched qInit
    (qInit_inv _)
  unfold runSched at h1 h2 ⊢
  obtain ⟨hu, ha1, ha2, hnb, h14, h24, hp1, hp2⟩ := hinv
  refine ⟨⟨by decide, by decide, by decide⟩, ?_⟩
  rcases h1 with h1 | h1
  · left
    have hph2 : (sched.foldl (qstep N (N / 2 + 1)) qInit).phase2 = 4 := by
      rcases h2 with h2 | h2
      · exact absurd ⟨h1, h2⟩ hnb
      · exact h2
    refine ⟨h1, hph2, ?_⟩
    cases hart : (sched.foldl (qstep N (N / 2 + 1)) qInit).art2 with
    | false => rfl
    | true =>
      have := ha2.mp hart
      omega
  · right
    have hph2 : (sched.foldl (qstep N (N / 2 + 1)) qInit).phase2 = 3 := h14 h1
    refine ⟨hph2, h1, ?_⟩
    cases hart : (sched.foldl (qstep N (N / 2 + 1)) qInit).art1 with
    | false => rfl
    | true =>
      have := ha1.mp hart
      omega

/-- C5 witness: cap 100, two uploads of 51 bytes, schedule running thread 1
to completion first: thread 1 commits, thread 2 is rejected at the locked
post-check with its artifact removed. -/
theorem C5_quota_serialization_witness :
    ((runSched 100 (100 / 2 + 1) [true, true, true, false, false, false]).phase1 = 3
      ∨ (runSched 100 (100 / 2 + 1) [true, true, true, false, false, false]).phase1 = 4)
    ∧ ((runSched 100 (100 / 2 + 1) [true, true, true, false, false, false]).phase2 = 3
      ∨ (runSched 100 (100 / 2 + 1) [true, true, true, false, false, false]).phase2 = 4)
    ∧ ((insideLock uploadSteps 3 = true
        ∧ insideLock uploadSteps 0 = false
        ∧ insideLock uploadSteps 1 = false)
      ∧ (((runSched 100 (100 / 2 + 1) [true, true, true, false, false, false]).phase1 = 3
            ∧ (runSched 100 (100 / 2 + 1) [true, true, true, false, false, false]).phase2 = 4
            ∧ (runSched 100 (100 / 2 + 1) [true, true, true, false, false, false]).art2 = false)
         ∨ ((runSched 100 (100 / 2 + 1) [true, true, true, false, false, false]).phase2 = 3
            ∧ (runSched 100 (100 / 2 + 1) [true, true, true, false, false, false]).phase1 = 4
            ∧ (runSched 100 (100 / 2 + 1) [true, true, true, false, false, false]).art1 = false))) :=
  ⟨by decide, by decide,
   C5_quota_serialization 100 (by decide) [true, true, true, false, false, false]
     (by decide) (by decide)⟩

end Mosaic
